import Mathlib

/-!
Verification development for the afterglow-core data provider layer.

The definitions below are shallow embeddings of the Python source:
* `path_to_filename` embeds `LocalDiskDataProvider._path_to_filename`
  (local_disk_provider.py, lines 105-118), with `abspathJoin` modelling
  `os.path.abspath(os.path.join(root, path.strip(chr 47)))` on POSIX.
* Later sections embed the metadata dispatcher, the filesystem-backed
  operations, the FTP provider helpers and the restricted-write decorator.
-/

namespace Afterglow

/-- Values stored in an asset metadata dictionary.  Python stores strings,
integers, datetime-like values and `None`; we keep one constructor each. -/
inductive MVal where
  | str (v : String)
  | num (v : Int)
  | time (v : Int)
  | null
deriving DecidableEq, Repr

/-- An asset metadata dictionary, as an association list with unique keys. -/
abbrev Metadata := List (String × MVal)

/-- Dictionary lookup (`d[k]` / `k in d`) over the association list. -/
def mdLookup (md : Metadata) (k : String) : Option MVal :=
  match md with
  | [] => none
  | (k2, v) :: rest => if k2 = k then some v else mdLookup rest k

/-- The provider error taxonomy (errors/data_provider*.py, errors/data_file.py). -/
inductive AGError where
  | assetNotFound
  | assetAlreadyExists
  | assetOutsideRoot
  | cannotUpdateCollectionAsset
  | unrecognizedDataFormat
  | filesystemError
  | validationError
deriving DecidableEq, Repr

deriving instance DecidableEq for Except

/-- The canonical asset record (`DataProviderAsset`). -/
structure DataProviderAsset where
  name : String
  collection : Bool
  path : String
  metadata : Metadata
deriving DecidableEq, Repr

/-! ## Path strings

Character-list models of the Python string operations used by
`_path_to_filename`: `str.strip`, `os.path.join` and `os.path.abspath`
(which on an absolute input is `posixpath.normpath`). -/

/-- Remove every leading and trailing occurrence of `c` (Python `str.strip`). -/
def stripCharEnds (c : Char) (l : List Char) : List Char :=
  ((l.dropWhile (· = c)).reverse.dropWhile (· = c)).reverse

/-- Python `path.strip` with the separator character. -/
def pyStripSlashes (s : String) : String := String.mk (stripCharEnds '/' s.data)

/-- Split a character list on a separator, keeping empty pieces. -/
def chSplit (c : Char) : List Char → List (List Char)
  | [] => [[]]
  | x :: xs =>
    match chSplit c xs with
    | [] => [[]]
    | s :: rest => if x = c then [] :: s :: rest else (x :: s) :: rest

/-- Split a string into separator-delimited pieces. -/
def strSplitSlash (s : String) : List String := (chSplit '/' s.data).map String.mk

/-- Canonicalize a segment list the way `posixpath.normpath` does for an
absolute path: drop empty and dot segments, let a dot-dot segment pop the
previous one (or vanish at the root). -/
def normSegs (segs : List String) : List String :=
  segs.foldl (fun acc s =>
    if s = "" ∨ s = "." then acc
    else if s = ".." then acc.dropLast
    else acc ++ [s]) []

/-- Join segments with the separator. -/
def strJoinSegs (segs : List String) : String := String.intercalate "/" segs

/-- Model of `os.path.abspath(os.path.join(root, path))` for an absolute
`root` and a relative `path`: concatenate and normalize. -/
def abspathJoin (root path : String) : String :=
  "/" ++ strJoinSegs (normSegs (strSplitSlash (root ++ "/" ++ path)))

/-- Python `str.startswith`. -/
def strStarts (r s : String) : Bool := r.data.isPrefixOf s.data

/-- Embedding of `LocalDiskDataProvider._path_to_filename`: strip slashes,
join with the root, canonicalize, then reject any result that does not have
the root as a string prefix. -/
def path_to_filename (root path : String) : Except AGError String :=
  let filename := abspathJoin root (pyStripSlashes path)
  if strStarts root filename then .ok filename else .error .assetOutsideRoot

/-- The notion of descendant used by the specification: the root itself or a
path below it (separator-aware, unlike the string-prefix check in the code). -/
def isDescendantPath (root f : String) : Bool :=
  f = root || strStarts (root ++ "/") f

/-! ## FTP provider helpers (ftp_providerdraft.py)

`get_date` embeds `FTPDataProvider._get_date` (lines 129-169); the
collection-vs-leaf inference of `FTPDataProvider.get_asset` (lines 56-65) is
embedded as `ftp_collection_of` over an abstract remote response. -/

/-- Python `datetime.datetime` restricted to the fields this code passes. -/
structure PyDatetime where
  year : Int
  month : Int
  day : Int
  hour : Int
  minute : Int
deriving DecidableEq, Repr

/-- Gregorian leap year test, as `datetime` validates days. -/
def isLeap (y : Int) : Bool := (y % 4 = 0 && y % 100 ≠ 0) || y % 400 = 0

/-- Days in a month, as `datetime` validates days. -/
def daysInMonth (y m : Int) : Int :=
  if m = 2 then (if isLeap y then 29 else 28)
  else if m = 4 || m = 6 || m = 9 || m = 11 then 30 else 31

/-- Model of `datetime(y, m, d, hh)` with the constructor's range validation; a failed
validation models the `ValueError` the constructor raises. -/
def mkDatetime (y m d hh : Int) : Option PyDatetime :=
  if 1 ≤ y ∧ y ≤ 9999 ∧ 1 ≤ m ∧ m ≤ 12 ∧ 1 ≤ d ∧ d ≤ daysInMonth y m
      ∧ 0 ≤ hh ∧ hh < 24
  then some ⟨y, m, d, hh, 0⟩ else none

/-- Value of one character as a digit in bases up to 36. -/
def digitValB (c : Char) : Option Nat :=
  if '0' ≤ c ∧ c ≤ '9' then some (c.toNat - '0'.toNat)
  else if 'a' ≤ c ∧ c ≤ 'z' then some (c.toNat - 'a'.toNat + 10)
  else if 'A' ≤ c ∧ c ≤ 'Z' then some (c.toNat - 'A'.toNat + 10)
  else none

/-- Accumulate a digit run in base `b`; fails on any out-of-base character. -/
def parseDigitsBAux (b : Nat) : List Char → Nat → Option Nat
  | [], acc => some acc
  | c :: rest, acc =>
    match digitValB c with
    | some d => if d < b then parseDigitsBAux b rest (acc * b + d) else none
    | none => none

/-- Parse a non-empty digit run in base `b`. -/
def parseDigitsB (b : Nat) (l : List Char) : Option Nat :=
  if l = [] then none else parseDigitsBAux b l 0

/-- Python `int(s)` on a slice: optional sign then a non-empty decimal run;
`none` models the `ValueError` raised otherwise. -/
def parsePyIntChars (l : List Char) : Option Int :=
  match l with
  | '+' :: rest => (parseDigitsB 10 rest).map Int.ofNat
  | '-' :: rest => (parseDigitsB 10 rest).map (fun n => -(n : Int))
  | _ => (parseDigitsB 10 l).map Int.ofNat

/-- Python `int(s, base)`: base 0 parses an unprefixed literal (decimal, no
leading zero unless the value is zero), bases 2..36 parse in that base, and
any other base raises `ValueError` (modelled as `none`). -/
def parsePyIntBase (l : List Char) (b : Int) : Option Int :=
  if b = 0 then
    let core := fun (m : List Char) =>
      match parseDigitsB 10 m with
      | some n => if m.head? = some '0' ∧ n ≠ 0 then none else some n
      | none => none
    match l with
    | '+' :: rest => (core rest).map Int.ofNat
    | '-' :: rest => (core rest).map (fun n => -(n : Int))
    | _ => (core l).map Int.ofNat
  else if 2 ≤ b ∧ b ≤ 36 then
    match l with
    | '+' :: rest => (parseDigitsB b.toNat rest).map Int.ofNat
    | '-' :: rest => (parseDigitsB b.toNat rest).map (fun n => -(n : Int))
    | _ => (parseDigitsB b.toNat l).map Int.ofNat
  else none

/-- The base-name loop at the top of `_get_date` and `get_asset`: rebuild the
name from scratch after every separator. -/
def getBaseName (path : String) : List Char :=
  path.data.foldl (fun nm c => if c = '/' then [] else nm ++ [c]) []

/-- Index of the first decimal digit; `none` models the `IndexError` the scan
loop raises when the name has no digit (caught by the bare `except`). -/
def firstDigitIdx : List Char → Option Nat
  | [] => none
  | c :: rest =>
    if '0' ≤ c ∧ c ≤ '9' then some 0 else (firstDigitIdx rest).map (· + 1)

/-- Python slice `l[a:b]` with non-negative clamped bounds. -/
def sliceCh (l : List Char) (a b : Nat) : List Char := (l.take b).drop a

/-- Embedding of `FTPDataProvider._get_date`: take the base name, find the
first digit, collect the rest of the name into `datestr`, then branch on the
length of the whole base name; every raised error is swallowed into `none`.
Note the final branch passes `int(datestr[9:11])` as the base of the
`int(datestr[7:9], _)` call and omits the minute argument, as the source does. -/
def get_date (path : String) : Option PyDatetime :=
  let name := getBaseName path
  match firstDigitIdx name with
  | none => none
  | some i =>
    let datestr := name.drop i
    if name.length = 6 then
      match parsePyIntChars (sliceCh datestr 0 4),
            parsePyIntChars (sliceCh datestr 4 6) with
      | some y, some m => mkDatetime y m 1 0
      | _, _ => none
    else if name.length = 12 then
      match parsePyIntChars (sliceCh datestr 0 2),
            parsePyIntChars (sliceCh datestr 2 4),
            parsePyIntChars (sliceCh datestr 4 6) with
      | some a, some b, some c => mkDatetime (2000 + a) b c 0
      | _, _, _ => none
    else
      match parsePyIntChars (sliceCh datestr 0 2),
            parsePyIntChars (sliceCh datestr 2 4),
            parsePyIntChars (sliceCh datestr 4 6),
            parsePyIntChars (sliceCh datestr 9 11) with
      | some a, some b, some c, some bb =>
        match parsePyIntBase (sliceCh datestr 7 9) bb with
        | some hh => mkDatetime (2000 + a) b c hh
        | none => none
      | _, _, _, _ => none

/-- Outcome of the `ftp.cwd(path)` probe in `get_asset`. -/
inductive CwdResult where
  | okDir
  | permDenied
  | otherErr
deriving DecidableEq, Repr

/-- What the remote session reports for one path: the `cwd` outcome and the
`nlst` listing (`none` models `nlst` itself raising). -/
structure RemoteNode where
  cwd : CwdResult
  nlst : Option (List String)
deriving DecidableEq, Repr

/-- Exceptions that can escape the collection-vs-leaf inference. -/
inductive PyExn where
  | assetNotFound
  | indexError
  | ftpError
deriving DecidableEq, Repr

/-- Embedding of the collection-vs-leaf inference in `FTPDataProvider.get_asset`
(lines 56-65): `cwd` success means collection; `error_perm` falls back to
taking the first `nlst` entry, where a non-empty name means leaf, an empty
name raises `AssetNotFoundError`, an empty listing raises an uncaught
`IndexError`, and any other remote failure propagates uncaught. -/
def ftp_collection_of (node : RemoteNode) : Except PyExn Bool :=
  match node.cwd with
  | .okDir => .ok true
  | .permDenied =>
    match node.nlst with
    | none => .error .ftpError
    | some [] => .error .indexError
    | some (h :: _) => if h = "" then .error .assetNotFound else .ok false
  | .otherErr => .error .ftpError

/-! ## Metadata extraction dispatcher

Embedding of the file branch of `LocalDiskDataProvider._get_asset`
(local_disk_provider.py, lines 146-313).  The decoders themselves (pyfits,
PIL, rawpy, exifread) are external collaborators; each probe is modelled by
the assignments its `try` block performed before returning or raising.  A
field holding `none` means the corresponding assignment never ran, which is
exactly how the enclosing `except ...: pass` leaves the local variables. -/

/-- Run of the pyfits probe: the assignments from its `try` block, with
`completed = true` iff control reached the `imtype = FITS` line. -/
structure FitsRun where
  completed : Bool
  layers : Option Nat
  width : Option Int
  height : Option Int
  explength : Option MVal
  telescope : Option MVal
  flt : Option String
  exptime : Option MVal
deriving DecidableEq, Repr

/-- Run of the PIL probe: `imtype` is assigned first, then the band-derived
fields, the image size and the EXIF dictionary. -/
structure PilRun where
  imtype : Option String
  layers : Option Nat
  flt : Option String
  size : Option (Int × Int)
  exif : Option Metadata
deriving DecidableEq, Repr

/-- Run of the rawpy probe. -/
structure RawRun where
  imtype : Option String
  layers : Option Nat
  flt : Option String
  width : Option Int
  height : Option Int
deriving DecidableEq, Repr

/-- What every probe reported for one file; `exifread` is the (atomic) result
of `exifread.process_file`, `none` when it raised. -/
structure FileProbes where
  fits : FitsRun
  pil : PilRun
  raw : RawRun
  exifread : Option Metadata
deriving DecidableEq, Repr

/-- The local variables of the classification code between the probes. -/
structure ClsState where
  imtype : Option String
  layers : Option Nat
  imwidth : Option Int
  imheight : Option Int
  explength : Option MVal
  telescope : Option MVal
  flt : Option String
  exptime : Option MVal
  exif : Option Metadata
deriving DecidableEq, Repr

/-- State after the pyfits `try` block (lines 150-198). -/
def fitsState (fp : FileProbes) : ClsState :=
  { imtype := if fp.fits.completed then some "FITS" else none
    layers := fp.fits.layers
    imwidth := fp.fits.width
    imheight := fp.fits.height
    explength := fp.fits.explength
    telescope := fp.fits.telescope
    flt := fp.fits.flt
    exptime := fp.fits.exptime
    exif := none }

/-- The PIL probe (lines 204-219): when PIL is importable, overlay whatever
the probe assigned before it returned or raised. -/
def pilStep (pilAvail : Bool) (fp : FileProbes) (s : ClsState) : ClsState :=
  if pilAvail then
    { s with
      imtype := fp.pil.imtype.or s.imtype
      layers := fp.pil.layers.or s.layers
      flt := fp.pil.flt.or s.flt
      imwidth := (fp.pil.size.map Prod.fst).or s.imwidth
      imheight := (fp.pil.size.map Prod.snd).or s.imheight
      exif := fp.pil.exif.or s.exif }
  else s

/-- The rawpy probe (lines 221-243), tried only when nothing has set a type. -/
def rawStep (rawAvail : Bool) (fp : FileProbes) (s : ClsState) : ClsState :=
  if s.imtype.isNone && rawAvail then
    { s with
      imtype := fp.raw.imtype.or s.imtype
      layers := fp.raw.layers.or s.layers
      flt := fp.raw.flt.or s.flt
      imwidth := fp.raw.width.or s.imwidth
      imheight := fp.raw.height.or s.imheight }
  else s

/-- The exifread refinement (lines 245-256): only for files already holding a
type, replace the EXIF dictionary when `process_file` succeeded. -/
def exifreadStep (exifAvail : Bool) (fp : FileProbes) (s : ClsState) : ClsState :=
  if s.imtype.isSome && exifAvail then { s with exif := fp.exifread.or s.exif }
  else s

/-- Extraction of exposure fields from the EXIF dictionary (lines 258-286);
the `strptime` refinement of the timestamp keeps the value abstract here. -/
def exifExtract (s : ClsState) : ClsState :=
  match s.exif with
  | none => s
  | some e =>
    { s with
      explength := (mdLookup e "ExposureTime").or s.explength
      exptime :=
        ((mdLookup e "DateTime").or
          ((mdLookup e "DateTimeOriginal").or
            (mdLookup e "DateTimeDigitized"))).or s.exptime }

/-- A possibly-unassigned integer as a Python dict value. -/
def optIntVal : Option Int → MVal
  | some n => MVal.num n
  | none => MVal.null

/-- A possibly-unassigned layer count as a Python dict value. -/
def optNatVal : Option Nat → MVal
  | some n => MVal.num n
  | none => MVal.null

/-- Final record construction (lines 288-313): raise
`UnrecognizedDataFormatError` when no probe set a type, else build the
metadata dictionary and append the optional keys. -/
def finalizeCls (s : ClsState) (size : Nat) (mtime : Int) :
    Except AGError Metadata :=
  match s.imtype with
  | none => .error .unrecognizedDataFormat
  | some t =>
    .ok ([("type", MVal.str t), ("size", MVal.num (size : Int)),
          ("time", s.exptime.getD (MVal.time mtime)),
          ("layers", optNatVal s.layers), ("width", optIntVal s.imwidth),
          ("height", optIntVal s.imheight)]
      ++ (match s.explength with
          | some v => [("exposure", v)]
          | none => [])
      ++ (match s.telescope with
          | some v => [("telescope", v)]
          | none => [])
      ++ (match s.flt with
          | some v => [("filter", MVal.str v)]
          | none => []))

/-- The dispatcher state after every probe has been consulted. -/
def clsFinalState (pilAvail rawAvail exifAvail : Bool) (fp : FileProbes) :
    ClsState :=
  let s0 := fitsState fp
  if s0.imtype.isNone && (pilAvail || rawAvail) then
    exifExtract (exifreadStep exifAvail fp
      (rawStep rawAvail fp (pilStep pilAvail fp s0)))
  else s0

/-- The whole dispatcher for a leaf file, with the three library-availability
flags of the source module. -/
def classifyFile (pilAvail rawAvail exifAvail : Bool) (fp : FileProbes)
    (size : Nat) (mtime : Int) : Except AGError Metadata :=
  finalizeCls (clsFinalState pilAvail rawAvail exifAvail fp) size mtime

/-- Dispatcher with every optional decoder available, which is how the
filesystem operations below use it. -/
def classifyAll (fp : FileProbes) (size : Nat) (mtime : Int) :
    Except AGError Metadata :=
  classifyFile true true true fp size mtime

/-- Which probe the code lets determine the format tag: FITS when its probe
completed, else the raster probe, else the RAW probe. -/
def selectedType (pilAvail rawAvail : Bool) (fp : FileProbes) : Option String :=
  if fp.fits.completed then some "FITS"
  else if pilAvail && fp.pil.imtype.isSome then fp.pil.imtype
  else if rawAvail && fp.raw.imtype.isSome then fp.raw.imtype
  else none

/-- Modelled from the spec (section 4.2): the dispatch policy as the
specification words it, with the bare EXIF read as a fourth fallback probe
that accepts a file none of the richer probes accepted.  Used only to compare
the stated policy against `classifyFile`. -/
def classifySpec (fp : FileProbes) (size : Nat) (mtime : Int) :
    Except AGError Metadata :=
  if fp.fits.completed then
    finalizeCls (fitsState fp) size mtime
  else if fp.pil.imtype.isSome then
    finalizeCls (exifExtract (pilStep true fp (fitsState fp))) size mtime
  else if fp.raw.imtype.isSome then
    finalizeCls (rawStep true fp (fitsState fp)) size mtime
  else if fp.exifread.isSome then
    finalizeCls (exifExtract
      { fitsState fp with imtype := some "EXIF", exif := fp.exifread })
      size mtime
  else .error .unrecognizedDataFormat

/-! ## The backing filesystem

A finite map from root-relative canonical segment paths to entries.  A leaf
carries its raw bytes together with what the external decoders report for
them: the probe runs of the dispatcher above and the outputs of the gzip and
bzip2 decompressors (`none` when the decompressor would raise). -/

/-- A leaf file as the external collaborators see it. -/
structure FileBlob where
  bytes : List Nat
  gz : Option (List Nat)
  bz2 : Option (List Nat)
  probes : FileProbes
deriving DecidableEq, Repr

/-- One directory entry. -/
inductive FSEntry where
  | file (blob : FileBlob) (mtime : Int)
  | dir (mtime : Int)
deriving DecidableEq, Repr

/-- The store under the effective root, keyed by segment paths; the root
itself (`[]`) always exists as a directory and is not listed. -/
abbrev FS := List (List String × FSEntry)

/-- Lookup of one entry. -/
def FS.lookup : FS → List String → Option FSEntry
  | [], _ => none
  | (k, e) :: rest, q => if k = q then some e else FS.lookup rest q

/-- Insert or replace one entry. -/
def FS.insert : FS → List String → FSEntry → FS
  | [], k, e => [(k, e)]
  | (k2, e2) :: rest, k, e =>
    if k2 = k then (k, e) :: rest else (k2, e2) :: FS.insert rest k e

/-- Model of `os.unlink`: drop exactly one key. -/
def FS.remove : FS → List String → FS
  | [], _ => []
  | (k2, e2) :: rest, k =>
    if k2 = k then FS.remove rest k else (k2, e2) :: FS.remove rest k

/-- Model of `shutil.rmtree`: drop the key and every key below it. -/
def FS.rmtree : FS → List String → FS
  | [], _ => []
  | (k2, e2) :: rest, k =>
    if k.isPrefixOf k2 then FS.rmtree rest k
    else (k2, e2) :: FS.rmtree rest k

/-- Model of `os.path.exists` relative to the root. -/
def FS.present (fs : FS) (k : List String) : Bool :=
  k.isEmpty || (FS.lookup fs k).isSome

/-- Model of `os.path.isdir` relative to the root. -/
def FS.isDirAt (fs : FS) (k : List String) : Bool :=
  k.isEmpty ||
    (match FS.lookup fs k with
     | some (.dir _) => true
     | _ => false)

/-- Model of `os.stat(...).st_mtime` for an existing entry. -/
def FS.mtimeAt (fs : FS) (k : List String) : Int :=
  match FS.lookup fs k with
  | some (.file _ m) => m
  | some (.dir m) => m
  | none => 0

/-- The non-empty prefixes of a segment path, shortest first. -/
def prefixesOf : List String → List (List String)
  | [] => []
  | x :: xs => [x] :: (prefixesOf xs).map (x :: ·)

/-- Create every still-missing prefix as a directory, shortest first. -/
def FS.mkdirsAux (now : Int) : FS → List (List String) → FS
  | fs, [] => fs
  | fs, q :: rest =>
    FS.mkdirsAux now
      (if (FS.lookup fs q).isSome then fs else FS.insert fs q (.dir now)) rest

/-- Model of `os.makedirs`: create the path and its missing ancestors. -/
def FS.makedirs (fs : FS) (segs : List String) (now : Int) : FS :=
  FS.mkdirsAux now fs (prefixesOf segs)

/-- Names of the direct children of a key. -/
def FS.childNames (fs : FS) (k : List String) : List String :=
  fs.filterMap (fun kv =>
    if kv.1.length = k.length + 1 ∧ k.isPrefixOf kv.1 then kv.1.getLast?
    else none)

/-! ## glob

`glob.glob` over one directory: a pattern with magic characters is matched
against the listing (hidden names are skipped unless the pattern itself
starts with a dot); a literal pattern is a bare existence check. -/

/-- Model of `fnmatch` matching for the `*` and `?` wildcards (a `[` set is treated as
a literal character here; no search pattern in this code uses one), with an
explicit fuel argument to keep the recursion structural; every step consumes
at least one pattern or name character, so `wildMatch` below always supplies
enough fuel. -/
def wildMatchFuel : Nat → List Char → List Char → Bool
  | 0, _, _ => false
  | _ + 1, [], [] => true
  | _ + 1, [], _ :: _ => false
  | f + 1, '*' :: ps, [] => wildMatchFuel f ps []
  | f + 1, '*' :: ps, c :: cs =>
    wildMatchFuel f ps (c :: cs) || wildMatchFuel f ('*' :: ps) cs
  | _ + 1, '?' :: _, [] => false
  | f + 1, '?' :: ps, _ :: cs => wildMatchFuel f ps cs
  | _ + 1, _ :: _, [] => false
  | f + 1, p :: ps, c :: cs => (p = c) && wildMatchFuel f ps cs

/-- Model of `fnmatch` matching of a name against a pattern. -/
def wildMatch (p n : List Char) : Bool :=
  wildMatchFuel (p.length + n.length + 1) p n

/-- Does the pattern contain a glob magic character? -/
def hasMagic (pat : List Char) : Bool :=
  pat.any (fun c => c = '*' || c = '?' || c = '[')

/-- A name the default glob pattern hides. -/
def isHiddenName (n : String) : Bool := n.data.head? = some '.'

/-- Model of `glob.glob(os.path.join(dir, pat))` restricted to one directory level. -/
def globNames (fs : FS) (k : List String) (pat : String) : List String :=
  if hasMagic pat.data then
    (FS.childNames fs k).filter (fun n =>
      wildMatch pat.data n.data && (isHiddenName pat || !isHiddenName n))
  else if FS.present fs (k ++ [pat]) then [pat] else []

/-! ## Local disk provider operations -/

/-- Split a string on a separator character. -/
def strSplitOn (c : Char) (s : String) : List String :=
  (chSplit c s.data).map String.mk

/-- Drop the first `n` characters. -/
def strDropChars (s : String) (n : Nat) : String := String.mk (s.data.drop n)

/-- The resolved filename of `_path_to_filename`, re-expressed as segments
relative to the root (the form the store is keyed by). -/
def resolveRel (root path : String) : Except AGError (List String) :=
  match path_to_filename root path with
  | .error e => .error e
  | .ok fn => .ok ((strSplitSlash (strDropChars fn root.length)).filter (· ≠ ""))

/-- Model of `path.replace(backslash, slash).strip(slash)`, as `_get_asset` cleans the
path it stores in the returned asset. -/
def pyCleanPath (p : String) : String :=
  String.mk (stripCharEnds '/' (p.data.map (fun c => if c = '\\' then '/' else c)))

/-- Embedding of the static `LocalDiskDataProvider._get_asset` (lines
120-313): a directory becomes a collection asset holding only its
modification time; a file is classified by the dispatcher, whose failure
propagates. -/
def getAssetAt (fs : FS) (path : String) (segs : List String) :
    Except AGError DataProviderAsset :=
  let cpath := pyCleanPath path
  let name := segs.getLast?.getD ""
  match FS.lookup fs segs with
  | some (.dir mtime) =>
    .ok { name := name, collection := true, path := cpath,
          metadata := [("time", MVal.time mtime)] }
  | some (.file blob mtime) =>
    match classifyAll blob.probes blob.bytes.length mtime with
    | .error e => .error e
    | .ok md =>
      .ok { name := name, collection := false, path := cpath, metadata := md }
  | none => .error .filesystemError

/-- One listing entry of `get_child_assets`: name, directory flag,
root-relative path and a metadata dictionary holding only the entry's
modification time. -/
def childAsset (fs : FS) (segs : List String) (n : String) : DataProviderAsset :=
  { name := n
    collection := FS.isDirAt fs (segs ++ [n])
    path := strJoinSegs (segs ++ [n])
    metadata := [("time", MVal.time (FS.mtimeAt fs (segs ++ [n])))] }

/-- Embedding of `LocalDiskDataProvider.get_child_assets` (lines 329-350). -/
def get_child_assets (root : String) (fs : FS) (path : String) :
    Except AGError (List DataProviderAsset) :=
  match resolveRel root path with
  | .error e => .error e
  | .ok segs =>
    if FS.isDirAt fs segs then
      .ok ((globNames fs segs "*").map (childAsset fs segs))
    else .error .assetNotFound

/-- Validation by `int(param)` of a `0`/`1` search flag (lines 382-389): an
empty value deactivates the filter, a non-integer raises `ValidationError`. -/
def parseBoolParam : Option String → Except AGError (Option Bool)
  | some c =>
    if c = "" then .ok none
    else
      match parsePyIntChars c.data with
      | some i => .ok (some (decide (i ≠ 0)))
      | none => .error .validationError
  | none => .ok none

/-- Validation by `int(param)` of a numeric search filter (lines 390-403). -/
def parseIntParam : Option String → Except AGError (Option Int)
  | some c =>
    if c = "" then .ok none
    else
      match parsePyIntChars c.data with
      | some i => .ok (some i)
      | none => .error .validationError
  | none => .ok none

/-- The per-candidate body of the `find_assets` loop (lines 424-459): the
collection fast path, the exception-swallowing classification, then the
`type`/`width`/`height` post-filters, each also skipping candidates whose
metadata lacks the key. -/
def findCandidate (fs : FS) (segs : List String)
    (typeF : Option (List String)) (collF : Option Bool)
    (widthF heightF : Option Int) (n : String) : Option DataProviderAsset :=
  let csegs := segs ++ [n]
  let collSkip :=
    match collF with
    | some b => FS.isDirAt fs csegs != b
    | none => false
  if collSkip then none
  else
    match getAssetAt fs (strJoinSegs csegs) csegs with
    | .error _ => none
    | .ok a =>
      let typeSkip :=
        match typeF with
        | some ts =>
          match mdLookup a.metadata "type" with
          | none => true
          | some v => !(ts.any (fun t => decide (v = MVal.str t)))
        | none => false
      let widthSkip :=
        match widthF with
        | some w =>
          match mdLookup a.metadata "width" with
          | none => true
          | some v => decide (v ≠ MVal.num w)
        | none => false
      let heightSkip :=
        match heightF with
        | some h =>
          match mdLookup a.metadata "height" with
          | none => true
          | some v => decide (v ≠ MVal.num h)
        | none => false
      if typeSkip || widthSkip || heightSkip then none else some a

/-- Embedding of `LocalDiskDataProvider.find_assets` (lines 352-461):
validate the filters, resolve the search directory (the provider root when
absent), then glob the name pattern (default every visible entry) and run
each candidate through `findCandidate`. -/
def find_assets (root : String) (fs : FS)
    (path nameArg typeArg collectionArg widthArg heightArg : Option String) :
    Except AGError (List DataProviderAsset) := do
  let typeF : Option (List String) :=
    match typeArg with
    | some t => if t = "" then none else some (strSplitOn ',' t)
    | none => none
  let collF ← parseBoolParam collectionArg
  let widthF ← parseIntParam widthArg
  let heightF ← parseIntParam heightArg
  let segs ← match path with
    | none => pure ([] : List String)
    | some p => resolveRel root p
  if FS.isDirAt fs segs then
    let pat := match nameArg with
      | some n => if n = "" then "*" else n
      | none => "*"
    pure ((globNames fs segs pat).filterMap
      (findCandidate fs segs typeF collF widthF heightF))
  else throw .assetNotFound

/-- Embedding of `LocalDiskDataProvider.update_asset` (lines 559-597): the
path must exist; a collection needs `force` and is then deleted recursively;
an absent payload recreates the path as an empty directory, a payload
overwrites the file; the result is reclassified, again without rollback. -/
def update_asset (root : String) (fs : FS) (path : String)
    (data : Option FileBlob) (force : Bool) (now : Int) :
    Except AGError DataProviderAsset × FS :=
  match resolveRel root path with
  | .error e => (.error e, fs)
  | .ok segs =>
    if !(FS.present fs segs) then (.error .assetNotFound, fs)
    else if FS.isDirAt fs segs && !force then
      (.error .cannotUpdateCollectionAsset, fs)
    else
      let fs1 := if FS.isDirAt fs segs then FS.rmtree fs segs else fs
      match data with
      | none =>
        let fs2 := if FS.present fs1 segs then FS.remove fs1 segs else fs1
        let fs3 := FS.makedirs fs2 segs now
        (getAssetAt fs3 path segs, fs3)
      | some blob =>
        let fs2 := FS.insert fs1 segs (.file blob now)
        (getAssetAt fs2 path segs, fs2)

/-! ## Restricted-write decorator -/

/-- The ambient authenticated user (`auth.current_user`). -/
structure AuthUser where
  username : String
deriving DecidableEq, Repr

/-- The decorator's state: the configured writer set. -/
structure RestrictedRWProvider where
  writers : List String
deriving DecidableEq, Repr

/-- Embedding of `RestrictedRWLocalDiskDataProvider.__getattribute__` for the
`readonly` attribute (lines 633-639): recomputed from the currently
authenticated user on every access, never stored. -/
def RestrictedRWProvider.readonly (p : RestrictedRWProvider)
    (currentUser : AuthUser) : Bool :=
  decide (currentUser.username ∉ p.writers)

/-! ## Concrete fixtures

Small concrete probe runs, blobs and stores used by the witnesses and
counterexamples below. -/

/-- A pyfits probe run that raised immediately. -/
def noFits : FitsRun := ⟨false, none, none, none, none, none, none, none⟩

/-- A pyfits probe run that completed on a 1024x768 single-HDU image. -/
def okFits : FitsRun := ⟨true, some 1, some 1024, some 768, none, none, some "", none⟩

/-- A PIL probe run that raised on `PILImage.open`. -/
def noPil : PilRun := ⟨none, none, none, none, none⟩

/-- A rawpy probe run that raised on `rawpy.imread`. -/
def noRaw : RawRun := ⟨none, none, none, none, none⟩

/-- Probes for a well-formed FITS file. -/
def fitsProbes : FileProbes := ⟨okFits, noPil, noRaw, none⟩

/-- Probes for a file no decoder recognizes. -/
def badProbes : FileProbes := ⟨noFits, noPil, noRaw, none⟩

/-- Probes for a file only the bare EXIF reader extracts anything from. -/
def exifOnlyProbes : FileProbes :=
  ⟨noFits, noPil, noRaw, some [("DateTime", MVal.str "2023:01:15 00:00:00")]⟩

/-- A three-byte FITS leaf. -/
def fitsBlob : FileBlob := ⟨[1, 2, 3], none, none, fitsProbes⟩

/-- A two-byte unrecognized leaf. -/
def badBlob : FileBlob := ⟨[9, 9], none, none, badProbes⟩

/-- A store whose only leaf is hidden behind a dot name. -/
def hiddenFS : FS := [(["d"], .dir 0), (["d", ".h"], .file badBlob 1)]

/-- A store with one hidden but perfectly recognizable FITS leaf. -/
def hiddenFitsFS : FS := [([".f"], .file fitsBlob 1)]

/-- A directory with a visible recognized leaf and a visible unrecognized one. -/
def childFS : FS := [(["d"], .dir 0), (["d", "u"], .file badBlob 1)]

/-- A mixed top-level store: a FITS leaf, an unrecognized leaf, a collection
and a hidden leaf. -/
def mixedFS : FS :=
  [(["f1"], .file fitsBlob 1), (["f2"], .file badBlob 2), (["d"], .dir 3),
   ([".h"], .file fitsBlob 4)]

/-! ## Helper lemmas -/

theorem FS.lookup_insert_self (fs : FS) (k : List String) (e : FSEntry) :
    FS.lookup (FS.insert fs k e) k = some e := by
  induction fs with
  | nil => simp [FS.insert, FS.lookup]
  | cons kv rest ih =>
    obtain ⟨k2, e2⟩ := kv
    by_cases h : k2 = k
    · simp [FS.insert, h, FS.lookup]
    · simp [FS.insert, h, FS.lookup, ih]

theorem FS.lookup_insert_ne (fs : FS) (k q : List String) (e : FSEntry)
    (h : q ≠ k) : FS.lookup (FS.insert fs k e) q = FS.lookup fs q := by
  have h2 : ¬ (k = q) := fun hh => h hh.symm
  induction fs with
  | nil => simp [FS.insert, FS.lookup, h2]
  | cons kv rest ih =>
    obtain ⟨k2, e2⟩ := kv
    by_cases hk : k2 = k
    · subst hk
      simp [FS.insert, FS.lookup, h2]
    · simp [FS.insert, hk, FS.lookup, ih]

theorem FS.lookup_rmtree (fs : FS) (k q : List String) :
    FS.lookup (FS.rmtree fs k) q =
      if k.isPrefixOf q then none else FS.lookup fs q := by
  induction fs with
  | nil => simp [FS.rmtree, FS.lookup]
  | cons kv rest ih =>
    obtain ⟨k2, e2⟩ := kv
    by_cases hp : k.isPrefixOf k2
    · rw [show FS.rmtree ((k2, e2) :: rest) k = FS.rmtree rest k from by
        simp [FS.rmtree, hp]]
      rw [ih]
      by_cases hq : k2 = q
      · subst hq
        simp [FS.lookup, hp]
      · simp [FS.lookup, hq]
    · rw [show FS.rmtree ((k2, e2) :: rest) k = (k2, e2) :: FS.rmtree rest k from by
        simp [FS.rmtree, hp]]
      by_cases hq : k2 = q
      · subst hq
        simp [FS.lookup, hp]
      · simp [FS.lookup, hq, ih]

theorem FS.lookup_remove (fs : FS) (k q : List String) :
    FS.lookup (FS.remove fs k) q =
      if q = k then none else FS.lookup fs q := by
  induction fs with
  | nil => simp [FS.remove, FS.lookup]
  | cons kv rest ih =>
    obtain ⟨k2, e2⟩ := kv
    by_cases hk : k2 = k
    · subst hk
      rw [show FS.remove ((k2, e2) :: rest) k2 = FS.remove rest k2 from by
        simp [FS.remove]]
      rw [ih]
      by_cases hq : k2 = q
      · subst hq
        simp
      · simp [FS.lookup, hq]
    · rw [show FS.remove ((k2, e2) :: rest) k = (k2, e2) :: FS.remove rest k from by
        simp [FS.remove, hk]]
      by_cases hq : k2 = q
      · subst hq
        simp [FS.lookup, hk]
      · simp [FS.lookup, hq, ih]

theorem FS.lookup_mem (fs : FS) (q : List String) (e : FSEntry)
    (h : FS.lookup fs q = some e) : (q, e) ∈ fs := by
  induction fs with
  | nil => simp [FS.lookup] at h
  | cons kv rest ih =>
    obtain ⟨k2, e2⟩ := kv
    by_cases hq : k2 = q
    · subst hq
      simp [FS.lookup] at h
      simp [h]
    · simp [FS.lookup, hq] at h
      simp [ih h]

theorem FS.mkdirsAux_lookup_some (now : Int) (qs : List (List String)) :
    ∀ (fs : FS) (q : List String) (e : FSEntry), FS.lookup fs q = some e →
      FS.lookup (FS.mkdirsAux now fs qs) q = some e := by
  induction qs with
  | nil => intro fs q e h; simpa [FS.mkdirsAux] using h
  | cons q2 rest ih =>
    intro fs q e h
    simp only [FS.mkdirsAux]
    by_cases h2 : (FS.lookup fs q2).isSome
    · simp [h2]
      exact ih _ _ _ h
    · simp [h2]
      apply ih
      by_cases hq : q2 = q
      · subst hq
        simp [h] at h2
      · rw [FS.lookup_insert_ne _ _ _ _ (Ne.symm hq)]
        exact h

theorem FS.mkdirsAux_lookup_not_mem (now : Int) (qs : List (List String)) :
    ∀ (fs : FS) (q : List String), q ∉ qs →
      FS.lookup (FS.mkdirsAux now fs qs) q = FS.lookup fs q := by
  induction qs with
  | nil => intro fs q _; simp [FS.mkdirsAux]
  | cons q2 rest ih =>
    intro fs q hq
    simp only [List.mem_cons, not_or] at hq
    simp only [FS.mkdirsAux]
    by_cases h2 : (FS.lookup fs q2).isSome
    · simp [h2]
      exact ih _ _ hq.2
    · simp [h2]
      rw [ih _ _ hq.2]
      exact FS.lookup_insert_ne _ _ _ _ hq.1

theorem FS.mkdirsAux_lookup_mem_missing (now : Int) (qs : List (List String)) :
    ∀ (fs : FS) (q : List String), q ∈ qs → FS.lookup fs q = none →
      FS.lookup (FS.mkdirsAux now fs qs) q = some (.dir now) := by
  induction qs with
  | nil => intro fs q h _; simp at h
  | cons q2 rest ih =>
    intro fs q hmem hnone
    simp only [FS.mkdirsAux]
    by_cases heq : q2 = q
    · subst heq
      have h2 : ¬ (FS.lookup fs q2).isSome = true := by simp [hnone]
      simp [h2]
      exact FS.mkdirsAux_lookup_some now rest _ _ _ (FS.lookup_insert_self _ _ _)
    · rcases List.mem_cons.mp hmem with h | h
      · exact absurd h.symm heq
      · by_cases h2 : (FS.lookup fs q2).isSome
        · simp [h2]
          exact ih _ _ h hnone
        · simp [h2]
          apply ih _ _ h
          rw [FS.lookup_insert_ne _ _ _ _ (Ne.symm heq)]
          exact hnone

theorem mem_prefixesOf_length {q : List String} :
    ∀ {p : List String}, q ∈ prefixesOf p → q.length ≤ p.length := by
  intro p
  induction p generalizing q with
  | nil => intro h; simp [prefixesOf] at h
  | cons x xs ih =>
    intro h
    simp only [prefixesOf, List.mem_cons, List.mem_map] at h
    rcases h with h | ⟨r, hr, hq⟩
    · subst h; simp
    · subst hq
      simpa using Nat.succ_le_succ (ih hr)

theorem self_mem_prefixesOf : ∀ (p : List String), p ≠ [] → p ∈ prefixesOf p := by
  intro p
  induction p with
  | nil => intro h; exact absurd rfl h
  | cons x xs ih =>
    intro _
    by_cases h : xs = []
    · subst h; simp [prefixesOf]
    · simp only [prefixesOf, List.mem_cons, List.mem_map]
      right
      exact ⟨xs, ih h, rfl⟩

theorem childNames_of_mem (fs : FS) (k : List String) (n : String) (e : FSEntry)
    (h : (k ++ [n], e) ∈ fs) : n ∈ FS.childNames fs k := by
  unfold FS.childNames
  rw [List.mem_filterMap]
  refine ⟨(k ++ [n], e), h, ?_⟩
  have h1 : (k ++ [n]).length = k.length + 1 := by simp
  have h2 : k.isPrefixOf (k ++ [n]) = true := by
    rw [List.isPrefixOf_iff_prefix]
    exact ⟨[n], rfl⟩
  simp [h1, h2]

theorem wildMatchFuel_star :
    ∀ (cs : List Char) (f : Nat), cs.length + 2 ≤ f →
      wildMatchFuel f ['*'] cs = true := by
  intro cs
  induction cs with
  | nil =>
    intro f hf
    obtain ⟨f2, rfl⟩ : ∃ f2, f = f2 + 2 := ⟨f - 2, by omega⟩
    rfl
  | cons c cs ih =>
    intro f hf
    obtain ⟨f2, rfl⟩ : ∃ f2, f = f2 + 1 := ⟨f - 1, by omega⟩
    show (wildMatchFuel f2 [] (c :: cs) || wildMatchFuel f2 ['*'] cs) = true
    rw [ih f2 (by simp at hf; omega)]
    simp

theorem wildMatch_star (cs : List Char) : wildMatch ['*'] cs = true := by
  unfold wildMatch
  exact wildMatchFuel_star cs _ (by simp; omega)


/-! ## Dispatcher lemmas -/

theorem exifExtract_imtype (s : ClsState) : (exifExtract s).imtype = s.imtype := by
  unfold exifExtract; cases s.exif <;> rfl

theorem exifreadStep_imtype (ea : Bool) (fp : FileProbes) (s : ClsState) :
    (exifreadStep ea fp s).imtype = s.imtype := by
  unfold exifreadStep
  by_cases h : (s.imtype.isSome && ea) = true
  · simp [h]
  · simp [h]

theorem rawStep_imtype (ra : Bool) (fp : FileProbes) (s : ClsState) :
    (rawStep ra fp s).imtype =
      if s.imtype.isNone && ra then fp.raw.imtype.or s.imtype else s.imtype := by
  unfold rawStep
  by_cases h : (s.imtype.isNone && ra) = true
  · simp [h]
  · simp [h]

theorem pilStep_imtype (pa : Bool) (fp : FileProbes) (s : ClsState) :
    (pilStep pa fp s).imtype =
      if pa then fp.pil.imtype.or s.imtype else s.imtype := by
  unfold pilStep
  by_cases h : pa = true
  · simp [h]
  · simp [h]

theorem clsFinalState_imtype (pa ra ea : Bool) (fp : FileProbes) :
    (clsFinalState pa ra ea fp).imtype = selectedType pa ra fp := by
  unfold clsFinalState selectedType
  cases hc : fp.fits.completed <;> cases pa <;> cases ra <;>
    cases hpil : fp.pil.imtype <;> cases hraw : fp.raw.imtype <;>
    simp [fitsState, hc, hpil, hraw, exifExtract_imtype, exifreadStep_imtype,
      rawStep_imtype, pilStep_imtype, Option.or_none, Option.none_or]

theorem finalizeCls_ok_lookups (s : ClsState) (t : String) (sz : Nat) (mt : Int)
    (h : s.imtype = some t) :
    ∃ md, finalizeCls s sz mt = .ok md ∧
      mdLookup md "type" = some (MVal.str t) ∧
      mdLookup md "size" = some (MVal.num sz) := by
  unfold finalizeCls
  rw [h]
  refine ⟨_, rfl, ?_, ?_⟩ <;> simp [mdLookup]

/-! ## Claim theorems -/

/-- Claim C1 (amended): for every root and user path, resolution either
raises the outside-root error or returns the canonical absolute join of the
root with the stripped path, and it returns exactly when that join has the
root as a string prefix.  The check is a bare string-prefix comparison, so a
returned path is not necessarily a true descendant of the root (see the
counterexample). -/
theorem path_resolution_prefix_guard (root path : String) :
    (∀ f, path_to_filename root path = .ok f →
      f = abspathJoin root (pyStripSlashes path) ∧ strStarts root f = true) ∧
    (strStarts root (abspathJoin root (pyStripSlashes path)) = false →
      path_to_filename root path = .error .assetOutsideRoot) := by
  unfold path_to_filename
  by_cases h : strStarts root (abspathJoin root (pyStripSlashes path))
  · refine ⟨?_, ?_⟩
    · intro f hf
      simp only [h, if_true] at hf
      cases hf
      exact ⟨rfl, h⟩
    · intro hfalse
      rw [h] at hfalse
      cases hfalse
  · have hb : strStarts root (abspathJoin root (pyStripSlashes path)) = false :=
      Bool.not_eq_true _ ▸ by simpa using h
    refine ⟨?_, ?_⟩
    · intro f hf
      simp only [hb, if_false] at hf
      cases hf
    · intro _
      simp [hb]

/-- Witness for the amended claim C1 at concrete inputs: a path inside the
root resolves to the canonical join, and a dot-dot path whose join loses the
root prefix raises `AssetOutsideRootError`. -/
theorem path_resolution_prefix_guard_witness :
    strStarts "/data" "/data/x" = true ∧
    path_to_filename "/a" "../.." = .error .assetOutsideRoot :=
  ⟨((path_resolution_prefix_guard "/data" "x").1 "/data/x" rfl).2,
   (path_resolution_prefix_guard "/a" "../..").2 rfl⟩

/-- Claim C1 counterexample: with root `/data`, the path `../data2`
canonicalizes to `/data2`, which passes the string-prefix check and is
returned even though it is not a descendant of the root, refuting the claimed
invariant that every resolved path is a descendant of the effective root. -/
theorem path_resolution_escapes_root :
    path_to_filename "/data" "../data2" = .ok "/data2" ∧
    isDescendantPath "/data" "/data2" = false :=
  ⟨rfl, rfl⟩

/-- Claim C2 (amended): the dispatcher tries FITS first, then the raster
probe, then the RAW probe; the first probe to set a format tag determines the
record's `type`; a probe that raised without setting its tag is skipped and
the next probe is tried; and when none of the three set a tag the dispatcher
raises `UnrecognizedDataFormatError` regardless of any EXIF data, because the
bare EXIF read only enriches files an earlier probe already accepted. -/
theorem classify_priority_order (pa ra ea : Bool) (fp : FileProbes)
    (size : Nat) (mtime : Int) :
    (selectedType pa ra fp = none →
      classifyFile pa ra ea fp size mtime = .error .unrecognizedDataFormat) ∧
    (∀ t, selectedType pa ra fp = some t →
      ∃ md, classifyFile pa ra ea fp size mtime = .ok md ∧
        mdLookup md "type" = some (MVal.str t)) := by
  have him := clsFinalState_imtype pa ra ea fp
  constructor
  · intro hn
    rw [hn] at him
    unfold classifyFile finalizeCls
    rw [him]
  · intro t ht
    rw [ht] at him
    obtain ⟨md, h1, h2, _⟩ :=
      finalizeCls_ok_lookups (clsFinalState pa ra ea fp) t size mtime him
    exact ⟨md, by unfold classifyFile; exact h1, h2⟩

/-- Witness for the amended claim C2: the dispatcher classifies a
well-formed FITS leaf as `FITS`. -/
theorem classify_priority_order_witness :
    ∃ md, classifyFile true true true fitsProbes 100 7 = .ok md ∧
      mdLookup md "type" = some (MVal.str "FITS") :=
  (classify_priority_order true true true fitsProbes 100 7).2 "FITS" rfl

/-- Claim C2 counterexample: a file that FITS, the raster probe and the RAW
probe all reject but that carries EXIF data is not accepted by a bare
EXIF-only fallback as claimed; the code raises `UnrecognizedDataFormatError`
while the stated four-probe policy would succeed. -/
theorem classify_exif_is_not_fallback :
    classifyFile true true true exifOnlyProbes 4 0 =
      .error .unrecognizedDataFormat ∧
    exifOnlyProbes.exifread.isSome = true ∧
    (classifySpec exifOnlyProbes 4 0).isOk = true :=
  ⟨rfl, rfl, rfl⟩

/-- Claim C3: the remote timestamp parser branches on the length of the whole
base name, not on the digit-run length: the 6-character name `202301` yields
2023-01-01 as documented, but the 8-character site-code name `lm230115` falls
into the final branch (the guard compares the name length to 12), where
`int` is applied to an empty slice, so the parser returns `None` instead of
the documented 2023-01-15. -/
theorem ftp_get_date_behavior :
    get_date "lm230115" = none ∧
    get_date "202301" = some ⟨2023, 1, 1, 0, 0⟩ :=
  ⟨rfl, rfl⟩

/-- Claim C4 counterexample: a permission-denied `cwd` combined with an empty
listing raises an uncaught `IndexError` from `nlst(path)[0]`, not
`AssetNotFoundError` as claimed. -/
theorem ftp_empty_listing_not_asset_not_found :
    ftp_collection_of ⟨.permDenied, some []⟩ = .error .indexError ∧
    ftp_collection_of ⟨.permDenied, some []⟩ ≠ .error .assetNotFound :=
  ⟨rfl, by decide⟩

/-- Claim C4 (amended): `cwd` success classifies the path as a collection; a
permission-denied response classifies it by the first listing entry — a
non-empty name means leaf, an empty name raises `AssetNotFoundError`, an
empty listing raises an uncaught `IndexError` — and every other remote error
propagates uncaught rather than as `AssetNotFoundError`. -/
theorem ftp_collection_classification (node : RemoteNode) :
    (node.cwd = .okDir → ftp_collection_of node = .ok true) ∧
    (node.cwd = .otherErr → ftp_collection_of node = .error .ftpError) ∧
    (node.cwd = .permDenied → node.nlst = none →
      ftp_collection_of node = .error .ftpError) ∧
    (node.cwd = .permDenied → node.nlst = some [] →
      ftp_collection_of node = .error .indexError) ∧
    (∀ h t, node.cwd = .permDenied → node.nlst = some (h :: t) →
      ftp_collection_of node =
        if h = "" then .error .assetNotFound else .ok false) := by
  obtain ⟨cwd, nlst⟩ := node
  refine ⟨?_, ?_, ?_, ?_, ?_⟩
  · intro h1; cases h1; rfl
  · intro h1; cases h1; rfl
  · intro h1 h2; cases h1; cases h2; rfl
  · intro h1 h2; cases h1; cases h2; rfl
  · intro h t h1 h2; cases h1; cases h2; rfl

/-- Witness for the amended claim C4: a successful `cwd` yields a
collection. -/
theorem ftp_collection_classification_witness :
    ftp_collection_of ⟨.okDir, none⟩ = .ok true :=
  (ftp_collection_classification ⟨.okDir, none⟩).1 rfl

/-- Claim C8: the restricted-write decorator computes `readonly` on every
access from the current identity against the writer set — true for an absent
identity, false for a present one — and the result tracks any change of the
writer set or of the identity between two accesses with no re-instantiation
and no cached value. -/
theorem restricted_readonly_per_access :
    (∀ (writers : List String) (u : AuthUser),
      RestrictedRWProvider.readonly ⟨writers⟩ u =
        decide (u.username ∉ writers)) ∧
    (∀ (writers : List String) (u1 u2 : AuthUser), u1.username ∉ writers →
      u2.username ∈ writers →
      RestrictedRWProvider.readonly ⟨writers⟩ u1 = true ∧
      RestrictedRWProvider.readonly ⟨writers⟩ u2 = false) ∧
    (∀ (w1 w2 : List String) (u : AuthUser), u.username ∈ w1 →
      u.username ∉ w2 →
      RestrictedRWProvider.readonly ⟨w1⟩ u = false ∧
      RestrictedRWProvider.readonly ⟨w2⟩ u = true) := by
  refine ⟨fun w u => rfl, ?_, ?_⟩
  · intro w u1 u2 h1 h2
    constructor
    · simp [RestrictedRWProvider.readonly, h1]
    · simp [RestrictedRWProvider.readonly, h2]
  · intro w1 w2 u h1 h2
    constructor
    · simp [RestrictedRWProvider.readonly, h1]
    · simp [RestrictedRWProvider.readonly, h2]

/-- Witness for claim C8: with writer set `[alice]`, user `bob` reads
`readonly = true` and user `alice` reads `readonly = false`. -/
theorem restricted_readonly_per_access_witness :
    RestrictedRWProvider.readonly ⟨["alice"]⟩ ⟨"bob"⟩ = true ∧
    RestrictedRWProvider.readonly ⟨["alice"]⟩ ⟨"alice"⟩ = false :=
  restricted_readonly_per_access.2.1 ["alice"] ⟨"bob"⟩ ⟨"alice"⟩
    (by decide) (by decide)

/-- One-directory glob with the default pattern: every visible (non-dot)
child name. -/
theorem globNames_star (fs : FS) (k : List String) :
    globNames fs k "*" =
      (FS.childNames fs k).filter (fun n => !isHiddenName n) := by
  unfold globNames
  rw [if_pos (by decide : hasMagic ("*" : String).data = true)]
  apply List.filter_congr
  intro n _
  rw [show ("*" : String).data = ['*'] from rfl, wildMatch_star]
  rw [show isHiddenName "*" = false from rfl]
  simp

/-- Claim C10 counterexample: a collection whose only child is the dot-named
leaf `.h` lists as empty, because `glob` with the `*` pattern skips hidden
names — so `getChildAssets` does not return every direct child. -/
theorem child_assets_hide_dotfiles :
    get_child_assets "/r" hiddenFS "d" = .ok [] ∧
    FS.childNames hiddenFS ["d"] = [".h"] :=
  ⟨rfl, rfl⟩

/-- Claim C10 (amended): for an existing collection, `getChildAssets` returns
every direct child whose name does not start with a dot — leaf or collection,
recognized or not, with no format classification — and each returned asset
carries a metadata map holding exactly the child's modification time, never
`type`, `size`, `width`, `height` or `layers`. -/
theorem get_child_assets_time_only (root : String) (fs : FS) (path : String)
    (segs : List String) (hres : resolveRel root path = .ok segs)
    (hdir : FS.isDirAt fs segs = true) :
    ∃ l, get_child_assets root fs path = .ok l ∧
      (∀ (n : String) (e : FSEntry), (segs ++ [n], e) ∈ fs →
        isHiddenName n = false → childAsset fs segs n ∈ l) ∧
      (∀ a, a ∈ l →
        a.metadata = [("time", MVal.time (FS.mtimeAt fs (segs ++ [a.name])))] ∧
        mdLookup a.metadata "type" = none ∧
        mdLookup a.metadata "size" = none ∧
        mdLookup a.metadata "width" = none ∧
        mdLookup a.metadata "height" = none ∧
        mdLookup a.metadata "layers" = none) := by
  have heq : get_child_assets root fs path =
      .ok ((globNames fs segs "*").map (childAsset fs segs)) := by
    unfold get_child_assets
    rw [hres]
    simp [hdir]
  refine ⟨_, heq, ?_, ?_⟩
  · intro n e hmem hhid
    rw [List.mem_map]
    refine ⟨n, ?_, rfl⟩
    rw [globNames_star, List.mem_filter]
    exact ⟨childNames_of_mem fs segs n e hmem, by simp [hhid]⟩
  · intro a ha
    rw [List.mem_map] at ha
    obtain ⟨n, _, rfl⟩ := ha
    refine ⟨rfl, ?_, ?_, ?_, ?_, ?_⟩ <;> simp [childAsset, mdLookup]

/-- Witness for the amended claim C10: the unrecognized visible leaf `u` is
listed among the children of `d` without classification. -/
theorem get_child_assets_time_only_witness :
    childAsset childFS ["d"] "u" ∈
      ((get_child_assets "/r" childFS "d").toOption.getD []) := by
  obtain ⟨l, h1, h2, _⟩ :=
    get_child_assets_time_only "/r" childFS "d" ["d"] rfl rfl
  rw [h1]
  exact h2 "u" (.file badBlob 1) (by decide) rfl

theorem present_of_isDirAt (fs : FS) (s : List String)
    (h : FS.isDirAt fs s = true) : FS.present fs s = true := by
  unfold FS.isDirAt at h
  unfold FS.present
  cases he : s.isEmpty with
  | true => simp [he]
  | false =>
    rw [he] at h
    simp only [Bool.false_or] at h ⊢
    cases hl : FS.lookup fs s with
    | none => rw [hl] at h; simp at h
    | some e => simp

theorem isPrefixOf_self (p : List String) : p.isPrefixOf p = true := by
  rw [List.isPrefixOf_iff_prefix]

theorem length_lt_of_isPrefixOf_ne {p q : List String}
    (h : p.isPrefixOf q = true) (hne : q ≠ p) : p.length < q.length := by
  rw [List.isPrefixOf_iff_prefix] at h
  obtain ⟨t, rfl⟩ := h
  cases t with
  | nil => simp at hne
  | cons a t2 => simp

theorem isEmpty_false_of_ne_nil {p : List String} (h : p ≠ []) :
    p.isEmpty = false := by
  cases p with
  | nil => exact absurd rfl h
  | cons a t => rfl

theorem makedirs_lookup_missing (fs : FS) (segs : List String) (now : Int)
    (hne : segs ≠ []) (h : FS.lookup fs segs = none) :
    FS.lookup (FS.makedirs fs segs now) segs = some (.dir now) :=
  FS.mkdirsAux_lookup_mem_missing now (prefixesOf segs) fs segs
    (self_mem_prefixesOf segs hne) h

theorem makedirs_lookup_longer (fs : FS) (segs q : List String) (now : Int)
    (h : segs.length < q.length) :
    FS.lookup (FS.makedirs fs segs now) q = FS.lookup fs q := by
  apply FS.mkdirsAux_lookup_not_mem
  intro hmem
  exact absurd (mem_prefixesOf_length hmem) (by omega)

/-- Claim C6: `updateAsset` raises `AssetNotFoundError` on a missing path
without touching the store; on a collection without `force` it raises
`CannotUpdateCollectionAssetError` without touching the store; on a
collection with `force` it deletes the tree recursively before writing the
payload; and with an absent payload it recreates the path as an empty
collection whose asset is returned. -/
theorem update_asset_semantics (root : String) (fs : FS) (path : String)
    (segs : List String) (data : Option FileBlob) (force : Bool) (now : Int)
    (hres : resolveRel root path = .ok segs) (hne : segs ≠ []) :
    (FS.present fs segs = false →
      update_asset root fs path data force now = (.error .assetNotFound, fs)) ∧
    (FS.isDirAt fs segs = true → force = false →
      update_asset root fs path data force now =
        (.error .cannotUpdateCollectionAsset, fs)) ∧
    (∀ blob, data = some blob → FS.isDirAt fs segs = true → force = true →
      (update_asset root fs path data force now).2 =
        FS.insert (FS.rmtree fs segs) segs (.file blob now)) ∧
    (data = none → FS.present fs segs = true →
      (FS.isDirAt fs segs = false → ∀ q, segs.isPrefixOf q = true → q ≠ segs →
        FS.lookup fs q = none) →
      (FS.isDirAt fs segs = true → force = true) →
      FS.lookup (update_asset root fs path data force now).2 segs =
        some (.dir now) ∧
      (∀ q, segs.isPrefixOf q = true → q ≠ segs →
        FS.lookup (update_asset root fs path data force now).2 q = none) ∧
      ∃ a, (update_asset root fs path data force now).1 = .ok a ∧
        a.collection = true ∧ a.metadata = [("time", MVal.time now)]) := by
  refine ⟨?_, ?_, ?_, ?_⟩
  · intro hp
    unfold update_asset
    rw [hres]
    simp [hp]
  · intro hdir hforce
    unfold update_asset
    rw [hres]
    simp [present_of_isDirAt _ _ hdir, hdir, hforce]
  · intro blob hdata hdir hforce
    subst hdata
    subst hforce
    unfold update_asset
    rw [hres]
    simp [present_of_isDirAt _ _ hdir, hdir]
  · intro hdata hp hnodesc hforce
    subst hdata
    by_cases hdir : FS.isDirAt fs segs = true
    · have hf := hforce hdir
      subst hf
      have h1 : FS.lookup (FS.rmtree fs segs) segs = none := by
        rw [FS.lookup_rmtree, if_pos (isPrefixOf_self segs)]
      have hpres1 : FS.present (FS.rmtree fs segs) segs = false := by
        unfold FS.present
        rw [h1, isEmpty_false_of_ne_nil hne]
        rfl
      have hred : update_asset root fs path none true now =
          (getAssetAt (FS.makedirs (FS.rmtree fs segs) segs now) path segs,
           FS.makedirs (FS.rmtree fs segs) segs now) := by
        unfold update_asset
        rw [hres]
        simp [hp, hdir, hpres1]
      rw [hred]
      have hA : FS.lookup (FS.makedirs (FS.rmtree fs segs) segs now) segs =
          some (.dir now) := makedirs_lookup_missing _ _ _ hne h1
      refine ⟨hA, ?_, ?_⟩
      · intro q hpre hqne
        rw [makedirs_lookup_longer _ _ _ _ (length_lt_of_isPrefixOf_ne hpre hqne)]
        rw [FS.lookup_rmtree]
        rw [if_pos hpre]
      · refine ⟨⟨segs.getLast?.getD "", true, pyCleanPath path,
          [("time", MVal.time now)]⟩, ?_, rfl, rfl⟩
        unfold getAssetAt
        rw [hA]
    · have hdirf : FS.isDirAt fs segs = false := by
        cases hd2 : FS.isDirAt fs segs
        · rfl
        · exact absurd hd2 hdir
      have h2 : FS.lookup (FS.remove fs segs) segs = none := by
        rw [FS.lookup_remove, if_pos rfl]
      have hred : update_asset root fs path none force now =
          (getAssetAt (FS.makedirs (FS.remove fs segs) segs now) path segs,
           FS.makedirs (FS.remove fs segs) segs now) := by
        unfold update_asset
        rw [hres]
        simp [hp, hdirf]
      rw [hred]
      have hA : FS.lookup (FS.makedirs (FS.remove fs segs) segs now) segs =
          some (.dir now) := makedirs_lookup_missing _ _ _ hne h2
      refine ⟨hA, ?_, ?_⟩
      · intro q hpre hqne
        rw [makedirs_lookup_longer _ _ _ _ (length_lt_of_isPrefixOf_ne hpre hqne)]
        rw [FS.lookup_remove, if_neg hqne]
        exact hnodesc hdirf q hpre hqne
      · refine ⟨⟨segs.getLast?.getD "", true, pyCleanPath path,
          [("time", MVal.time now)]⟩, ?_, rfl, rfl⟩
        unfold getAssetAt
        rw [hA]

theorem getAssetAt_file (fs : FS) (path : String) (segs : List String)
    (blob : FileBlob) (mt : Int)
    (h : FS.lookup fs segs = some (.file blob mt)) :
    getAssetAt fs path segs =
      (match classifyAll blob.probes blob.bytes.length mt with
       | .error e => .error e
       | .ok md =>
         .ok ⟨segs.getLast?.getD "", false, pyCleanPath path, md⟩) := by
  unfold getAssetAt
  rw [h]

theorem getAssetAt_dir (fs : FS) (path : String) (segs : List String)
    (mt : Int) (h : FS.lookup fs segs = some (.dir mt)) :
    getAssetAt fs path segs =
      .ok ⟨segs.getLast?.getD "", true, pyCleanPath path,
           [("time", MVal.time mt)]⟩ := by
  unfold getAssetAt
  rw [h]

/-- Witness for claim C6: missing path, collection-without-force and
empty-collection recreation at a concrete store. -/
theorem update_asset_semantics_witness :
    update_asset "/r" childFS "z" (some fitsBlob) false 9 =
      (.error .assetNotFound, childFS) ∧
    update_asset "/r" childFS "d" (some fitsBlob) false 9 =
      (.error .cannotUpdateCollectionAsset, childFS) ∧
    FS.lookup (update_asset "/r" childFS "d" none true 9).2 ["d"] =
      some (.dir 9) := by
  refine ⟨?_, ?_, ?_⟩
  · exact (update_asset_semantics "/r" childFS "z" ["z"] (some fitsBlob) false 9
      rfl (by decide)).1 rfl
  · exact (update_asset_semantics "/r" childFS "d" ["d"] (some fitsBlob) false 9
      rfl (by decide)).2.1 rfl rfl
  · exact ((update_asset_semantics "/r" childFS "d" ["d"] none true 9
      rfl (by decide)).2.2.2 rfl rfl
      (fun h => absurd h (by decide)) (fun _ => rfl)).1

theorem getAssetAt_none (fs : FS) (path : String) (segs : List String)
    (h : FS.lookup fs segs = none) :
    getAssetAt fs path segs = .error .filesystemError := by
  unfold getAssetAt
  rw [h]

theorem findCandidate_tw_iff (fs : FS) (tsl : List String) (w : Int)
    (n : String) (a : DataProviderAsset) :
    findCandidate fs [] (some tsl) none (some w) none n = some a ↔
      ∃ blob mt md, FS.lookup fs [n] = some (.file blob mt) ∧
        classifyAll blob.probes blob.bytes.length mt = .ok md ∧
        (∃ v, mdLookup md "type" = some v ∧
          tsl.any (fun t => decide (v = MVal.str t)) = true) ∧
        mdLookup md "width" = some (MVal.num w) ∧
        a = ⟨n, false, pyCleanPath (strJoinSegs [n]), md⟩ := by
  unfold findCandidate
  simp only [List.nil_append]
  cases hl : FS.lookup fs [n] with
  | none =>
    rw [getAssetAt_none fs (strJoinSegs [n]) [n] hl]
    simp
  | some e =>
    cases e with
    | dir mt =>
      rw [getAssetAt_dir fs (strJoinSegs [n]) [n] mt hl]
      simp [mdLookup]
    | file blob mt =>
      rw [getAssetAt_file fs (strJoinSegs [n]) [n] blob mt hl]
      cases hc : classifyAll blob.probes blob.bytes.length mt with
      | error e2 =>
        simp
        intro x hx
        rw [hc] at hx
        cases hx
      | ok md =>
        cases htv : mdLookup md "type" with
        | none =>
          simp [htv]
          intro x hx x1 hx1 x2 _ _ _
          rw [hc] at hx
          cases hx
          rw [htv] at hx1
          cases hx1
        | some v =>
          cases hta : tsl.any (fun t => decide (v = MVal.str t)) with
          | false =>
            simp [htv, hta]
            intro x hx x1 hx1 x2 hx2 heq hw2
            rw [hc] at hx
            cases hx
            rw [htv] at hx1
            cases hx1
            have hany : tsl.any (fun t => decide (v = MVal.str t)) = true :=
              List.any_eq_true.mpr ⟨x2, hx2, by rw [heq]; simp⟩
            rw [hany] at hta
            cases hta
          | true =>
            cases hwv : mdLookup md "width" with
            | none =>
              simp [htv, hta, hwv]
              intro x hx x1 hx1 x2 _ _ hw2
              rw [hc] at hx
              cases hx
              rw [hwv] at hw2
              cases hw2
            | some vw =>
              by_cases hveq : vw = MVal.num w
              · subst hveq
                simp [htv, hta, hwv]
                constructor
                · intro ha
                  obtain ⟨t, ht1, hdec⟩ := List.any_eq_true.mp hta
                  exact ⟨blob, mt, ⟨rfl, rfl⟩, md, hc,
                    ⟨v, htv, t, ht1, of_decide_eq_true hdec⟩, hwv, ha.symm⟩
                · intro ⟨blob1, mt1, ⟨hb, hm⟩, x, hx, _, _, ha⟩
                  cases hb
                  cases hm
                  rw [hc] at hx
                  cases hx
                  exact ha.symm
              · simp [htv, hta, hwv, hveq]
                intro x hx x1 hx1 x2 _ _ hw2
                rw [hc] at hx
                cases hx
                rw [hwv] at hw2
                cases hw2
                rw [htv] at hx1
                cases hx1
                exact absurd rfl hveq

theorem findCandidate_height_mem (fs : FS) (hv : Int) (n : String)
    (a : DataProviderAsset)
    (h : findCandidate fs [] none none none (some hv) n = some a) :
    mdLookup a.metadata "height" = some (MVal.num hv) := by
  unfold findCandidate at h
  simp only [List.nil_append] at h
  cases hl : FS.lookup fs [n] with
  | none =>
    rw [getAssetAt_none fs (strJoinSegs [n]) [n] hl] at h
    simp at h
  | some e =>
    cases e with
    | dir mt =>
      rw [getAssetAt_dir fs (strJoinSegs [n]) [n] mt hl] at h
      simp [mdLookup] at h
    | file blob mt =>
      rw [getAssetAt_file fs (strJoinSegs [n]) [n] blob mt hl] at h
      cases hc : classifyAll blob.probes blob.bytes.length mt with
      | error e2 =>
        rw [hc] at h
        simp at h
      | ok md =>
        rw [hc] at h
        cases hdv : mdLookup md "height" with
        | none => simp [hdv] at h
        | some vh =>
          by_cases hveq : vh = MVal.num hv
          · subst hveq
            simp [hdv] at h
            rw [← h]
            exact hdv
          · simp [hdv, hveq] at h

/-- Claim C5 (amended): with a type and a width filter active, `findAssets`
over the provider root succeeds (a per-candidate classification failure only
excludes that candidate) and returns exactly the assets of the visible
(non-dot-named) leaf children whose classification succeeds with a `type`
value in the requested list and a `width` value equal to the filter —
candidates whose metadata lacks the key are excluded, which also drops every
collection; likewise every result of a height-filtered search carries the
requested `height` value. -/
theorem find_assets_filter_semantics (root : String) (fs : FS)
    (ts ws hs : String) (w hv : Int)
    (hts : ts ≠ "") (hws : ws ≠ "")
    (hw : parsePyIntChars ws.data = some w)
    (hhs : hs ≠ "") (hh : parsePyIntChars hs.data = some hv) :
    (∃ l, find_assets root fs none none (some ts) none (some ws) none =
        .ok l ∧
      ∀ a, a ∈ l ↔
        ∃ (n : String) (blob : FileBlob) (mt : Int) (md : Metadata),
          FS.lookup fs [n] = some (.file blob mt) ∧
          isHiddenName n = false ∧
          classifyAll blob.probes blob.bytes.length mt = .ok md ∧
          (∃ v, mdLookup md "type" = some v ∧
            (strSplitOn ',' ts).any (fun t => decide (v = MVal.str t)) = true) ∧
          mdLookup md "width" = some (MVal.num w) ∧
          a = ⟨n, false, pyCleanPath (strJoinSegs [n]), md⟩) ∧
    (∀ l a, find_assets root fs none none none none none (some hs) = .ok l →
      a ∈ l → mdLookup a.metadata "height" = some (MVal.num hv)) := by
  constructor
  · have hred : find_assets root fs none none (some ts) none (some ws) none =
        .ok ((globNames fs [] "*").filterMap
          (findCandidate fs [] (some (strSplitOn ',' ts)) none (some w) none)) := by
      unfold find_assets
      simp [hts, hws, hw, parseBoolParam, parseIntParam, FS.isDirAt]
      rfl
    refine ⟨_, hred, ?_⟩
    intro a
    rw [List.mem_filterMap]
    constructor
    · rintro ⟨n, hn, hf⟩
      have hhid : isHiddenName n = false := by
        rw [globNames_star, List.mem_filter] at hn
        have h2 := hn.2
        simp only [Bool.not_eq_true'] at h2
        exact h2
      obtain ⟨blob, mt, md, h1, h2, h3, h4, h5⟩ :=
        (findCandidate_tw_iff fs _ w n a).mp hf
      exact ⟨n, blob, mt, md, h1, hhid, h2, h3, h4, h5⟩
    · rintro ⟨n, blob, mt, md, h1, hhid, h2, h3, h4, h5⟩
      refine ⟨n, ?_, (findCandidate_tw_iff fs _ w n a).mpr
        ⟨blob, mt, md, h1, h2, h3, h4, h5⟩⟩
      rw [globNames_star, List.mem_filter]
      refine ⟨childNames_of_mem fs [] n _ (FS.lookup_mem fs [n] _ h1), ?_⟩
      rw [hhid]
      rfl
  · intro l a hleq ha
    have hred2 : find_assets root fs none none none none none (some hs) =
        .ok ((globNames fs [] "*").filterMap
          (findCandidate fs [] none none none (some hv))) := by
      unfold find_assets
      simp [hhs, hh, parseBoolParam, parseIntParam, FS.isDirAt]
      rfl
    rw [hred2] at hleq
    cases hleq
    rw [List.mem_filterMap] at ha
    obtain ⟨n, _, hf⟩ := ha
    exact findCandidate_height_mem fs hv n a hf

/-- Claim C5 counterexample: a store whose only entry is a hidden but
perfectly recognizable 1024-wide FITS leaf makes
`findAssets(type=FITS, width=1024)` return the empty list, not that asset,
because the default glob pattern skips dot names — so the search does not
return exactly the recognized matching FITS assets. -/
theorem find_assets_hides_dotfiles :
    find_assets "/r" hiddenFitsFS none none (some "FITS") none (some "1024")
      none = .ok [] ∧
    (∃ md, classifyAll fitsBlob.probes fitsBlob.bytes.length 1 = .ok md ∧
      mdLookup md "type" = some (MVal.str "FITS") ∧
      mdLookup md "width" = some (MVal.num 1024)) :=
  ⟨rfl, ⟨_, rfl, rfl, rfl⟩⟩

/-- Witness for the amended claim C5: over a mixed store the search returns
a list containing the recognized 1024-wide FITS leaf. -/
theorem find_assets_filter_semantics_witness :
    ∃ l, find_assets "/r" mixedFS none none (some "FITS") none (some "1024")
        none = .ok l ∧
      ∃ md, (⟨"f1", false, pyCleanPath (strJoinSegs ["f1"]), md⟩ :
          DataProviderAsset) ∈ l := by
  obtain ⟨⟨l, h1, h2⟩, _⟩ :=
    find_assets_filter_semantics "/r" mixedFS "FITS" "1024" "7" 1024 7
      (by decide) (by decide) rfl (by decide) rfl
  refine ⟨l, h1, ?_⟩
  obtain ⟨md, hcls, ht, hwl⟩ : ∃ md,
      classifyAll fitsBlob.probes fitsBlob.bytes.length 1 = .ok md ∧
      mdLookup md "type" = some (MVal.str "FITS") ∧
      mdLookup md "width" = some (MVal.num 1024) := ⟨_, rfl, rfl, rfl⟩
  refine ⟨md, (h2 _).mpr
    ⟨"f1", fitsBlob, 1, md, rfl, rfl, hcls,
     ⟨MVal.str "FITS", ht, by decide⟩, hwl, rfl⟩⟩

end Afterglow
